import Mathlib

/-!
Verification of the osc-plugin-qam repository (oscqam/models.py, oscqam/cli.py
and its test layer) against its natural-language specification.

Python strings are modelled as Lean `String`; the Python string operations the
code uses (`str.strip`, `str.split`, `str.replace`, substring membership) are
re-implemented here by structural recursion over the underlying character list,
so that every definition is executable by kernel reduction.  A log file is
modelled as the list of its lines (Python iterates a file line by line; the
trailing newline of each line is removed by the `strip` calls in the source,
so working with newline-free lines is equivalent).
-/

namespace Oscqam

/-- Whitespace as stripped by Python's `str.strip` (space, tab, newline,
carriage return; the exotic `\x0b`/`\x0c` characters never occur in the
inputs considered here). -/
def isPyWS (c : Char) : Bool := c = ' ' || c = '\t' || c = '\n' || c = '\r'

/-- Characters of a string with surrounding whitespace removed. -/
def trimChars (l : List Char) : List Char :=
  ((l.dropWhile isPyWS).reverse.dropWhile isPyWS).reverse

/-- Python `value.strip()`. -/
def pyStrip (s : String) : String := String.mk (trimChars s.data)

/-- Helper for `pySplitComma`: accumulates the current field (reversed). -/
def splitCommaAux : List Char → List Char → List String
  | acc, [] => [String.mk acc.reverse]
  | acc, c :: cs =>
    if c = ',' then String.mk acc.reverse :: splitCommaAux [] cs
    else splitCommaAux (c :: acc) cs

/-- Python `value.split(",")`: split on every comma, fields kept verbatim. -/
def pySplitComma (s : String) : List String := splitCommaAux [] s.data

/-- Helper for `pySplitFirstColon`: accumulates the prefix before the first
colon (reversed). -/
def splitFirstColonAux : List Char → List Char → Option (String × String)
  | _, [] => none
  | acc, c :: cs =>
    if c = ':' then some (String.mk acc.reverse, String.mk cs)
    else splitFirstColonAux (c :: acc) cs

/-- Python `line.split(":", 1)` unpacked into `key, value`: `none` models the
`ValueError` raised when the line contains no colon. -/
def pySplitFirstColon (s : String) : Option (String × String) :=
  splitFirstColonAux [] s.data

/-- Substring membership on character lists (Python `pat in s`). -/
def containsSubAux (pat : List Char) : List Char → Bool
  | [] => pat.isEmpty
  | c :: cs => pat.isPrefixOf (c :: cs) || containsSubAux pat cs

/-- Python `pat in s` for strings. -/
def pyContains (s pat : String) : Bool := containsSubAux pat.data s.data

/-- Helper for `pyReplaceAll`: fuel-driven scan so that the recursion is
structural; the fuel is always instantiated with the length of the scanned
list, which bounds the number of steps. -/
def replaceAllAux (pat : List Char) : Nat → List Char → List Char
  | _, [] => []
  | 0, s => s
  | fuel + 1, c :: cs =>
    if pat.isPrefixOf (c :: cs) then replaceAllAux pat fuel ((c :: cs).drop pat.length)
    else c :: replaceAllAux pat fuel cs

/-- Python `value.replace(pat, "")` for a non-empty pattern: removes every
(left-to-right, non-overlapping) occurrence of `pat`. -/
def pyReplaceAll (s pat : String) : String :=
  String.mk (replaceAllAux pat.data s.data.length s.data)

/-- Value stored in `Template.log_entries`: the source keeps either the plain
stripped string or (for `Packages`) a list of stripped strings. -/
inductive LogValue
  | str (s : String)
  | list (l : List String)
deriving DecidableEq, Repr

/-- Test for the line at which `Template.parse_log` stops
(`"Test results by" in line`). -/
def containsResultsMarker (line : String) : Bool :=
  pyContains line "Test results by"

/-- Field-specific post-processing of a header value in `Template.parse_log`:
`Packages` is comma-split with each entry stripped, `Products` has every
occurrence of `"SLE-"` removed (Python `str.replace` replaces all occurrences)
and is then stripped, every other value is stripped. -/
def postProcess (key value : String) : LogValue :=
  if key = "Packages" then LogValue.list ((pySplitComma value).map pyStrip)
  else if key = "Products" then LogValue.str (pyStrip (pyReplaceAll value "SLE-"))
  else LogValue.str (pyStrip value)

/-- Python dict assignment `d[key] = v`: overwrite in place if the key exists,
otherwise append (insertion order preserved, as for a Python dict). -/
def upsert : List (String × LogValue) → String → LogValue → List (String × LogValue)
  | [], key, v => [(key, v)]
  | (k, w) :: rest, key, v =>
    if k = key then (k, v) :: rest else (k, w) :: upsert rest key v

/-- Loop body of `Template.parse_log`: fold over the lines of the log,
stopping at the results marker, skipping colon-free lines (the `ValueError`
branch) and entering every `key: value` line into the dictionary. -/
def parseLines : List (String × LogValue) → List String → List (String × LogValue)
  | entries, [] => entries
  | entries, line :: rest =>
    if containsResultsMarker line then entries
    else
      match pySplitFirstColon line with
      | some (key, value) => parseLines (upsert entries key (postProcess key value)) rest
      | none => parseLines entries rest

/-- Dictionary built by `Template.parse_log` from the lines of a log file. -/
def parse_log (lines : List String) : List (String × LogValue) :=
  parseLines [] lines

/-! Template lookup (`Template.for_request` / `Template.__init__`).  The
filesystem the source walks (`os.listdir` of the template base path and the
`log` file inside a template directory) is modelled explicitly. -/

/-- Filesystem as seen by the Template facade: the ordered directory listing
of `template_base_path`, and for each directory the lines of its `log` file
(`none` models a missing log file). -/
structure TemplateFS where
  dirs : List String
  logFile : String → Option (List String)

/-- Error raised by `Template.parse_log` when the directory has no `log`
file (`AttributeError("Template does not contain log file.")`). -/
inductive TemplateErr
  | missingLogFile
deriving DecidableEq, Repr

/-- Parsed template record: directory, owning request id and the header
dictionary. -/
structure Template where
  directory : String
  request : String
  log_entries : List (String × LogValue)
deriving DecidableEq, Repr

/-- Constructor `Template(directory, request)`: fails when the log file is
missing, otherwise the header is fully parsed into `log_entries`. -/
def Template.make (fs : TemplateFS) (directory request : String) :
    Except TemplateErr Template :=
  match fs.logFile directory with
  | none => Except.error TemplateErr.missingLogFile
  | some lines =>
    Except.ok { directory := directory, request := request, log_entries := parse_log lines }

/-- Backtracking match for the `\d+:<request_id>` part of the template name
regex: consume at least one digit, then either the rest starts with
`:<request_id>` or consume further digits. -/
def matchDigitsThen (rid : List Char) : List Char → Bool
  | [] => false
  | c :: cs => c.isDigit && ((':' :: rid).isPrefixOf cs || matchDigitsThen rid cs)

/-- Python `re.match("SUSE:Maintenance:(\d+):<request_id>", dir)`: an
anchored-at-the-start match (trailing characters allowed, as `re.match` does
not anchor the end).  The interpolated request id is taken literally; request
ids are digit strings so they contain no regex metacharacters. -/
def template_name_matches (request_id dir : String) : Bool :=
  ("SUSE:Maintenance:".data).isPrefixOf dir.data &&
    matchDigitsThen request_id.data (dir.data.drop "SUSE:Maintenance:".data.length)

/-- Classmethod `Template.for_request`: return a Template built from the
first directory in the listing matching the name regex; when no directory
matches, the source logs an error and falls off the end of the function,
returning `None` — modelled by the `none` result. -/
def Template.for_request (fs : TemplateFS) (request_id : String) :
    Option (Except TemplateErr Template) :=
  match fs.dirs.find? (template_name_matches request_id) with
  | some dir => some (Template.make fs dir request_id)
  | none => none

/-! Request reviews (`Request.open_reviews`).  A review element parsed from
the request XML carries an optional `state` attribute (the source guards the
access with `hasattr`) and the optional reviewer attributes
`by_group`/`by_user`/`who`.  The review attribute of a request is either
absent, a single review object, or a list of review objects, exactly as the
XML mapper produces it. -/

/-- Review record as produced by the entity mapper; `none` in a field models
an absent XML attribute. -/
structure Review where
  state : Option String
  by_group : Option String
  by_user : Option String
  who : Option String
deriving DecidableEq, Repr

/-- The `review` attribute of a Request: absent, one review object, or a
list of review objects. -/
inductive ReviewField
  | absent
  | one (r : Review)
  | many (rs : List Review)
deriving DecidableEq, Repr

/-- Class attribute `Request.open_states`. -/
def open_states : List String := ["new", "review"]

/-- Filter used on the list branch of `Request.open_reviews`:
`hasattr(r, 'state') and r.state in Request.open_states`. -/
def reviewIsOpen (r : Review) : Bool :=
  match r.state with
  | some s => open_states.contains s
  | none => false

/-- Modelled from the spec: the inner `name_review` helper calls an `exists`
attribute-presence method on review objects that is not defined anywhere in
the source tree; per the spec a Review "normalizes to a single
`reviewer.name` field" from whichever of `by_group`/`by_user`/`who` is
populated.  The in-place mutation of `r.name` is modelled by this derived
name function; it leaves the other fields of the review untouched. -/
def name_review (r : Review) : String :=
  match r.by_group with
  | some g => g
  | none =>
    match r.by_user with
    | some u => u
    | none =>
      match r.who with
      | some w => w
      | none => ""

/-- Method `Request.open_reviews`: empty for a falsy `review` attribute
(absent, or an empty list); for a list, the reviews whose state is an open
state; for a single review object, that review — unconditionally. -/
def open_reviews : ReviewField → List Review
  | ReviewField.absent => []
  | ReviewField.many rs => rs.filter reviewIsOpen
  | ReviewField.one r => [r]

/-- All reviews carried by the `review` attribute, as a list. -/
def reviews_of : ReviewField → List Review
  | ReviewField.absent => []
  | ReviewField.many rs => rs
  | ReviewField.one r => [r]

/-! Group identity (`Group.__eq__` / `Group.__hash__`). -/

/-- Group record; only `name` and `title` matter for identity (`for_name`
overwrites `name` with `title`). -/
structure Group where
  name : String
  title : String
deriving Repr

/-- Method `Group.__eq__`: comparison by name alone. -/
def Group.eq (g other : Group) : Bool := g.name == other.name

/-- Stand-in for the Python hash of the `Group` type object (a fixed value
independent of the instance). -/
def groupTypeHash : Nat := 17

/-- Method `Group.__hash__`: `hash(self.name) + hash(type(self))`, a function
of the name only. -/
def Group.hashValue (g : Group) : Nat := (hash g.name).toNat + groupTypeHash

/-! Multi-level sort (`cli.multi_level_sort`).  The key functions of the test
return integers, so criteria are modelled as functions into `Nat`.  Python's
`sorted` is a stable sort by key; it is modelled by a stable insertion sort
(the output of a stable sort by key is uniquely determined, so any stable
implementation is extensionally the same function).  `itertools.groupby`
groups consecutive elements with equal key. -/

/-- Insert an element behind every already-placed element whose key is not
greater: the insertion position of a stable sort. -/
def insertStable (key : α → Nat) (x : α) : List α → List α
  | [] => [x]
  | y :: ys => if key y ≤ key x then y :: insertStable key x ys else x :: y :: ys

/-- Python `sorted(xs, key=extractor)`: stable sort by key, realized by
left-to-right insertion. -/
def sortStable (key : α → Nat) (xs : List α) : List α :=
  xs.foldl (fun acc x => insertStable key x acc) []

/-- Python `itertools.groupby(xs, key)` restricted to the groups' element
lists: maximal runs of consecutive elements with equal key. -/
def groupRuns (key : α → Nat) : List α → List (List α)
  | [] => []
  | x :: xs =>
    match groupRuns key xs with
    | [] => [[x]]
    | [] :: gs => [x] :: gs
    | (y :: g) :: gs =>
      if key x = key y then (x :: y :: g) :: gs else [x] :: (y :: g) :: gs

/-- Recursion of `multi_level_sort`, driven by a fuel argument so that the
recursion is structural (the fuel is instantiated with the number of
criteria, which bounds the recursion depth).  Each level takes the LAST
criterion (`criteria[-1]`), sorts by it, groups equal keys, and recursively
sorts each group by the remaining criteria (`criteria[:-1]`). -/
def multiLevelSortAux : Nat → List α → List (α → Nat) → List α
  | _, xs, [] => xs
  | 0, xs, _ :: _ => xs
  | fuel + 1, xs, c :: cs =>
    let extractor := (c :: cs).getLastD c
    let xss := sortStable extractor xs
    let grouped := groupRuns extractor xss
    (grouped.map (fun g => multiLevelSortAux fuel g ((c :: cs).dropLast))).flatten

/-- Function `multi_level_sort(xs, criteria)` of `oscqam/cli.py`. -/
def multi_level_sort (xs : List α) (criteria : List (α → Nat)) : List α :=
  multiLevelSortAux criteria.length xs criteria

/-! Assign-action group inference.  The module `oscqam/actions.py` is not
part of the source tree (only its tests and its CLI callers are), so the
inference contract is modelled from the spec (§4.2). -/

/-- Errors of the assign inference, per the spec's error taxonomy. -/
inductive AssignError
  | NoQamReviewsError
  | NonMatchingGroupsError
  | UninferableError
deriving DecidableEq, Repr

/-- Modelled from the spec: a qam-group is a group "whose name matches a
fixed workflow-group naming pattern, e.g. contains `qam`" (the source's
`User.qam_regex = ".*qam.*"`). -/
def isQamGroup (name : String) : Bool := pyContains name "qam"

/-- Modelled from the spec: the assign candidates — "open review-groups on
the request ∩ the user's qam-groups that do not already have an assigned
user". -/
def assignCandidates (openReviewGroups userQamGroups assignedGroups : List String) :
    List String :=
  (openReviewGroups.filter isQamGroup).filter
    (fun g => userQamGroups.contains g && !(assignedGroups.contains g))

/-- Modelled from the spec: group resolution of the Assign action
(`oscqam/actions.py` is missing from the source tree).  An explicitly
supplied group bypasses inference entirely and is used as-is; otherwise zero
candidates fail with `NoQamReviewsError` (no qam-relevant open review at
all) or `NonMatchingGroupsError` (qam-relevant open reviews exist), a unique
candidate is the result, and several candidates fail with
`UninferableError`. -/
def assignInferGroup (explicit : Option String)
    (openReviewGroups userQamGroups assignedGroups : List String) :
    Except AssignError String :=
  match explicit with
  | some g => Except.ok g
  | none =>
    match assignCandidates openReviewGroups userQamGroups assignedGroups with
    | [] =>
      if (openReviewGroups.filter isQamGroup).isEmpty then
        Except.error AssignError.NoQamReviewsError
      else Except.error AssignError.NonMatchingGroupsError
    | [g] => Except.ok g
    | _ :: _ :: _ => Except.error AssignError.UninferableError

/-! Helper lemmas about the log parser. -/

/-- Unfolding lemma for the cons case of `parseLines`. -/
theorem parseLines_cons (entries : List (String × LogValue)) (line : String)
    (rest : List String) :
    parseLines entries (line :: rest) =
      if containsResultsMarker line then entries
      else
        match pySplitFirstColon line with
        | some (key, value) => parseLines (upsert entries key (postProcess key value)) rest
        | none => parseLines entries rest := rfl

/-- Parsing a list of lines none of which contains the results marker can be
split at any point. -/
theorem parseLines_append (pre rest : List String) (entries : List (String × LogValue))
    (h : ∀ l ∈ pre, containsResultsMarker l = false) :
    parseLines entries (pre ++ rest) = parseLines (parseLines entries pre) rest := by
  induction pre generalizing entries with
  | nil => rfl
  | cons x xs ih =>
    have hx : containsResultsMarker x = false := h x (List.mem_cons_self x xs)
    have hxs : ∀ l ∈ xs, containsResultsMarker l = false :=
      fun l hl => h l (List.mem_cons_of_mem x hl)
    rw [List.cons_append, parseLines_cons, parseLines_cons, hx]
    simp only [Bool.false_eq_true, if_false]
    cases hkv : pySplitFirstColon x with
    | none => exact ih _ hxs
    | some kv => exact ih _ hxs

/-- Looking up the key just written by `upsert` yields the written value. -/
theorem lookup_upsert (entries : List (String × LogValue)) (k : String) (v : LogValue) :
    (upsert entries k v).lookup k = some v := by
  induction entries with
  | nil => simp [upsert, List.lookup]
  | cons e rest ih =>
    obtain ⟨k', w⟩ := e
    by_cases hk : k' = k
    · subst hk
      simp [upsert, List.lookup]
    · simp only [upsert, if_neg hk, List.lookup]
      have : (k == k') = false := by
        simp [Ne.symm hk]
      rw [this]
      exact ih

/-- Writing a different key with `upsert` does not change a lookup. -/
theorem lookup_upsert_ne (entries : List (String × LogValue)) (k k' : String)
    (v : LogValue) (h : k' ≠ k) :
    (upsert entries k' v).lookup k = entries.lookup k := by
  have hb : (k == k') = false := by simp [Ne.symm h]
  induction entries with
  | nil =>
    simp [upsert, List.lookup, hb]
  | cons e rest ih =>
    obtain ⟨k0, w⟩ := e
    by_cases hk : k0 = k'
    · subst hk
      simp [upsert, List.lookup, hb]
    · simp only [upsert, if_neg hk, List.lookup]
      cases hbeq : (k == k0) with
      | true => rfl
      | false => exact ih

/-- Processing lines that contain neither the results marker nor the key `k`
leaves the lookup of `k` unchanged. -/
theorem lookup_parseLines_of_no_key (post : List String)
    (entries : List (String × LogValue)) (k : String)
    (h : ∀ l ∈ post, containsResultsMarker l = false ∧
      (pySplitFirstColon l).map Prod.fst ≠ some k) :
    (parseLines entries post).lookup k = entries.lookup k := by
  induction post generalizing entries with
  | nil => rfl
  | cons x xs ih =>
    obtain ⟨hx, hxk⟩ := h x (List.mem_cons_self x xs)
    have hxs : ∀ l ∈ xs, containsResultsMarker l = false ∧
        (pySplitFirstColon l).map Prod.fst ≠ some k :=
      fun l hl => h l (List.mem_cons_of_mem x hl)
    rw [parseLines_cons, hx]
    simp only [Bool.false_eq_true, if_false]
    cases hkv : pySplitFirstColon x with
    | none => exact ih _ hxs
    | some kv =>
      obtain ⟨k', v'⟩ := kv
      have hne : k' ≠ k := by
        intro hcontra
        apply hxk
        rw [hkv, hcontra]
        rfl
      rw [ih _ hxs, lookup_upsert_ne _ _ _ _ hne]

/-- From any starting dictionary, parsing stops at a marker line: the lines
at and after it contribute nothing. -/
theorem parseLines_marker_all (L : String) (hL : containsResultsMarker L = true)
    (pre post : List String) (entries : List (String × LogValue)) :
    parseLines entries (pre ++ L :: post) = parseLines entries pre := by
  induction pre generalizing entries with
  | nil =>
    rw [List.nil_append, parseLines_cons, hL]
    rfl
  | cons x xs ih =>
    rw [List.cons_append, parseLines_cons, parseLines_cons]
    cases hx : containsResultsMarker x with
    | true => rfl
    | false =>
      simp only [Bool.false_eq_true, if_false]
      cases hkv : pySplitFirstColon x with
      | none => exact ih _
      | some kv => exact ih _

/-- From any starting dictionary, a colon-free non-marker line is skipped:
removing it does not change the parse. -/
theorem parseLines_skip_all (L : String) (hm : containsResultsMarker L = false)
    (hc : pySplitFirstColon L = none) (pre post : List String)
    (entries : List (String × LogValue)) :
    parseLines entries (pre ++ L :: post) = parseLines entries (pre ++ post) := by
  induction pre generalizing entries with
  | nil =>
    rw [List.nil_append, List.nil_append, parseLines_cons, hm]
    simp only [Bool.false_eq_true, if_false, hc]
  | cons x xs ih =>
    rw [List.cons_append, List.cons_append, parseLines_cons, parseLines_cons]
    cases hx : containsResultsMarker x with
    | true => rfl
    | false =>
      simp only [Bool.false_eq_true, if_false]
      cases hkv : pySplitFirstColon x with
      | none => exact ih _
      | some kv => exact ih _

/-! Concrete data shared by witnesses and counterexamples. -/

/-- Review in terminal state `accepted`, reviewed by a group. -/
def acceptedReview : Review :=
  { state := some "accepted", by_group := some "qam-sle", by_user := none, who := none }

/-- Review in the open state `new`, reviewed by a group. -/
def newReview : Review :=
  { state := some "new", by_group := some "qam-cloud", by_user := none, who := none }

/-- Two groups sharing a name but differing in every other field. -/
def groupA : Group := { name := "qam-sle", title := "qam-sle maintenance" }

/-- Second group with the same name as `groupA`. -/
def groupB : Group := { name := "qam-sle", title := "a different title" }

/-- Template base-path listing in which no directory matches request id
`12345`, with no log files at all. -/
def fsNoTemplate : TemplateFS :=
  { dirs := ["SUSE:Maintenance:4711:99999", "testreports-old"], logFile := fun _ => none }

/-! Claim theorems. -/

/-- Claim C1, counterexample: the claim asserts every element of
`open_reviews` has state `new` or `review` also when the request carries
exactly one review; but for a single (non-list) review object the source
returns it without any state filter, so a request whose only review is
`accepted` yields that review from `open_reviews`. -/
theorem C1_counterexample :
    open_reviews (ReviewField.one acceptedReview) = [acceptedReview] ∧
      acceptedReview.state = some "accepted" ∧
      open_states.contains "accepted" = false := by
  decide

/-- Claim C1, amended: `open_reviews(R)` is always a subset of `R`'s
reviews; the guarantee that every element's state is in {new, review} holds
when the `review` attribute is a list (including the empty list and the
absent attribute), while a single non-list review is returned
unconditionally, whatever its state. -/
theorem C1_open_reviews_subset (f : ReviewField) :
    (∀ r ∈ open_reviews f, r ∈ reviews_of f) ∧
      (∀ rs, f = ReviewField.many rs → ∀ r ∈ open_reviews f, reviewIsOpen r = true) := by
  constructor
  · intro r hr
    cases f with
    | absent => simp [open_reviews] at hr
    | one x => simpa [open_reviews, reviews_of] using hr
    | many rs =>
      have h := List.mem_filter.mp (by simpa [open_reviews] using hr)
      simpa [reviews_of] using h.1
  · intro rs hf r hr
    subst hf
    have h := List.mem_filter.mp (by simpa [open_reviews] using hr)
    exact h.2

/-- Claim C1, witness: instantiation of the amended theorem on a request
carrying the review list `[newReview, acceptedReview]`. -/
theorem C1_witness :
    newReview ∈ reviews_of (ReviewField.many [newReview, acceptedReview]) ∧
      reviewIsOpen newReview = true :=
  ⟨(C1_open_reviews_subset (ReviewField.many [newReview, acceptedReview])).1
      newReview (by decide),
   (C1_open_reviews_subset (ReviewField.many [newReview, acceptedReview])).2
      [newReview, acceptedReview] rfl newReview (by decide)⟩

/-- Claim C2: the source splits only the `Packages` header field on commas;
an `SRCRPMs` header line is stored as the raw stripped string, not as the
list the repository's own test `test_template_splits_srcrpms` expects, so
the log header `SRCRPMs: glibc, glibc-devel` yields the string
`"glibc, glibc-devel"` and not `["glibc", "glibc-devel"]`. -/
theorem C2_srcrpms_not_split :
    (parse_log ["SRCRPMs: glibc, glibc-devel"]).lookup "SRCRPMs" =
        some (LogValue.str "glibc, glibc-devel") ∧
      (parse_log ["SRCRPMs: glibc, glibc-devel"]).lookup "SRCRPMs" ≠
        some (LogValue.list ["glibc", "glibc-devel"]) ∧
      (parse_log ["Packages: glibc, glibc-devel"]).lookup "Packages" =
        some (LogValue.list ["glibc", "glibc-devel"]) := by
  decide

/-- Claim C3: for the log header `Products: SLE-PSLE-SP3 (i386)` the source
removes EVERY occurrence of `"SLE-"` (Python `str.replace`) and keeps the
value as a plain string, producing `"PSP3 (i386)"`; the repository's own
test `test_replacing_sle_prefix` instead expects the list
`["PSLE-SP3 (i386)"]` with only the first occurrence stripped. -/
theorem C3_products_strips_all_occurrences :
    (parse_log ["Products: SLE-PSLE-SP3 (i386)"]).lookup "Products" =
        some (LogValue.str "PSP3 (i386)") ∧
      (parse_log ["Products: SLE-PSLE-SP3 (i386)"]).lookup "Products" ≠
        some (LogValue.list ["PSLE-SP3 (i386)"]) := by
  decide

/-- Claim C4: when more than one candidate group exists and no explicit
group is given, the assign inference fails with `UninferableError`; an
explicitly supplied group bypasses inference and the operation resolves to
exactly that group. -/
theorem C4_multiple_candidates_uninferable
    (openReviewGroups userQamGroups assignedGroups : List String)
    (h : 1 < (assignCandidates openReviewGroups userQamGroups assignedGroups).length) :
    assignInferGroup none openReviewGroups userQamGroups assignedGroups =
        Except.error AssignError.UninferableError ∧
      ∀ g, assignInferGroup (some g) openReviewGroups userQamGroups assignedGroups =
        Except.ok g := by
  constructor
  · unfold assignInferGroup
    cases hc : assignCandidates openReviewGroups userQamGroups assignedGroups with
    | nil => rw [hc] at h; simp at h
    | cons a rest =>
      cases rest with
      | nil => rw [hc] at h; simp at h
      | cons b r2 => simp
  · intro g
    rfl

/-- Claim C4, witness: the scenario of `test_assign_multiple_groups` — two
qam-groups both have open, unassigned reviews; inference fails with
`UninferableError` and the explicit group `qam-test` succeeds. -/
theorem C4_witness :
    assignInferGroup none ["qam-sle", "qam-cloud"] ["qam-sle", "qam-cloud"] [] =
        Except.error AssignError.UninferableError ∧
      assignInferGroup (some "qam-test") ["qam-sle", "qam-cloud"] ["qam-sle", "qam-cloud"] [] =
        Except.ok "qam-test" :=
  ⟨(C4_multiple_candidates_uninferable ["qam-sle", "qam-cloud"] ["qam-sle", "qam-cloud"] []
      (by decide)).1,
   (C4_multiple_candidates_uninferable ["qam-sle", "qam-cloud"] ["qam-sle", "qam-cloud"] []
      (by decide)).2 "qam-test"⟩

/-- Claim C5: evaluated at a template store holding no directory matching
request id `12345`, `Template.for_request` returns `None` (after logging)
instead of failing with `TemplateNotFoundError` — no such error class exists
in the source, although the repository's own tests reference
`models.TemplateNotFoundError`; the all-or-nothing half of the claim does
hold: constructing a `Template` from a directory without a log file is a
hard failure, never a partial Template. -/
theorem C5_lookup_miss_returns_none :
    Template.for_request fsNoTemplate "12345" = none ∧
      Template.make fsNoTemplate "SUSE:Maintenance:4711:99999" "99999" =
        Except.error TemplateErr.missingLogFile :=
  ⟨rfl, rfl⟩

/-- Claim C6: `multi_level_sort` on the records `{a:0, b:1}`, `{a:0, b:0}`
(modelled as the pairs `(a, b)`) with the criteria list `[key b, key a]`
puts the `b = 0` record first — the last criterion is the coarsest, the
first criterion is applied innermost. -/
theorem C6_multi_level_sort_example :
    multi_level_sort [((0 : Nat), (1 : Nat)), (0, 0)]
        [fun p => p.2, fun p => p.1] = [(0, 0), (0, 1)] := by
  decide

/-- Claim C7: header parsing stops at the first line containing the results
marker `"Test results by"`: the entries of a log are exactly the entries of
its prefix before that line, whatever follows it. -/
theorem C7_parse_stops_at_results_marker (pre post : List String) (L : String)
    (hL : containsResultsMarker L = true) :
    parse_log (pre ++ L :: post) = parse_log pre :=
  parseLines_marker_all L hL pre post []

/-- Claim C7, witness: a concrete log where a `key: value` line after the
results marker contributes nothing. -/
theorem C7_witness :
    parse_log ["Rating: low", "Test results by the tester", "After: x"] =
      parse_log ["Rating: low"] :=
  C7_parse_stops_at_results_marker ["Rating: low"] ["After: x"]
    "Test results by the tester" (by decide)

/-- Claim C8: a line before the results marker that contains no colon (so
`line.split(":", 1)` cannot be unpacked) is skipped: it adds no entry and
parsing continues with the remaining lines exactly as if the line were not
there. -/
theorem C8_colonless_line_skipped (pre post : List String) (L : String)
    (hm : containsResultsMarker L = false) (hc : pySplitFirstColon L = none) :
    parse_log (pre ++ L :: post) = parse_log (pre ++ post) :=
  parseLines_skip_all L hm hc pre post []

/-- Claim C8, witness: a concrete log in which a colon-free line between two
header lines changes nothing. -/
theorem C8_witness :
    parse_log ["Rating: low", "no colon here", "Category: security"] =
      parse_log ["Rating: low", "Category: security"] :=
  C8_colonless_line_skipped ["Rating: low"] ["Category: security"]
    "no colon here" (by decide) (by decide)

/-- Claim C9: Group equality holds exactly when the names are equal, and
equal names imply equal hash values; both are functions of the name alone,
never of object identity, so same-named Groups are interchangeable as
set/dict keys. -/
theorem C9_group_identity_by_name (g1 g2 : Group) :
    (Group.eq g1 g2 = true ↔ g1.name = g2.name) ∧
      (g1.name = g2.name → Group.hashValue g1 = Group.hashValue g2) := by
  constructor
  · simp [Group.eq]
  · intro h
    simp [Group.hashValue, h]

/-- Claim C9, witness: `groupA` and `groupB` share the name `qam-sle` but
differ in their other fields; they compare equal and hash equal. -/
theorem C9_witness :
    Group.eq groupA groupB = true ∧ Group.hashValue groupA = Group.hashValue groupB :=
  ⟨(C9_group_identity_by_name groupA groupB).1.mpr rfl,
   (C9_group_identity_by_name groupA groupB).2 rfl⟩

/-- Claim C10: when the same key occurs on several `key: value` lines of the
header (no results marker in between), the dictionary maps the key to the
value of the LAST such line — the later assignment silently overwrites the
earlier ones and the parse still succeeds.  `pre` may contain arbitrary
earlier occurrences of the key. -/
theorem C10_last_occurrence_wins (pre post : List String) (L k v : String)
    (hpre : ∀ l ∈ pre, containsResultsMarker l = false)
    (hL : containsResultsMarker L = false)
    (hkv : pySplitFirstColon L = some (k, v))
    (hpost : ∀ l ∈ post, containsResultsMarker l = false ∧
      (pySplitFirstColon l).map Prod.fst ≠ some k) :
    (parse_log (pre ++ L :: post)).lookup k = some (postProcess k v) := by
  unfold parse_log
  rw [parseLines_append pre (L :: post) [] hpre, parseLines_cons, hL]
  simp only [Bool.false_eq_true, if_false, hkv]
  rw [lookup_parseLines_of_no_key post _ k hpost, lookup_upsert]

/-- Claim C10, witness: the key `Rating` occurs twice; the entry is the
processed value of the second line. -/
theorem C10_witness :
    (parse_log ["Rating: low", "Rating: critical", "Category: security"]).lookup "Rating" =
      some (postProcess "Rating" " critical") :=
  C10_last_occurrence_wins ["Rating: low"] ["Category: security"]
    "Rating: critical" "Rating" " critical" (by decide) (by decide) (by decide) (by decide)

end Oscqam




